import Mathlib

/-!
Verification development for the WebRTC mesh-membership tracker of the
JoinGo front-end. The repository carries two client implementations of the
same signaling protocol:

* a module-level voice-chat client (`ensurePeer` / `teardownPeer` /
  `stopVoiceChat`, socket handlers registered in `startVoiceChat`), and
* a React hook `useVoiceWebRTC` (`createPeer` / `destroyPeer` /
  `connect` / `disconnect`, socket handlers registered in `connect`).

Both are embedded below as explicit state-passing functions. A JavaScript
`Map` is modelled as an insertion-ordered association list with the exact
`get` / `set` / `delete` / `has` semantics. Each `new Peer(...)`
allocation is given a fresh numeric allocation id so that statements about
"how many connection objects exist for an identifier" and "destroy was
invoked exactly once" are expressible: every allocated connection is kept
in an `allocs` list carrying its destroy count and the signal payloads
delivered to it.

Console logging is not modelled. The module's `currentMeetingId`
bookkeeping (a string cleared on stop) and the opaque media-stream
attachment of a connection are not modelled; no claim mentions them.
Signal payloads are abstracted as natural numbers (the code treats them as
opaque blobs).
-/

/-- JavaScript `Map.get`: the value of the first (unique) entry with the
given key. -/
def mapGet {α : Type} : List (String × α) → String → Option α
  | [], _ => none
  | (k, v) :: rest, key => if k = key then some v else mapGet rest key

/-- JavaScript `Map.set`: replace the entry in place when the key is
present, otherwise append at the end (insertion order). -/
def mapSet {α : Type} : List (String × α) → String → α → List (String × α)
  | [], key, val => [(key, val)]
  | (k, v) :: rest, key, val =>
    if k = key then (key, val) :: rest else (k, v) :: mapSet rest key val

/-- JavaScript `Map.delete`: remove the entry with the given key. -/
def mapDelete {α : Type} : List (String × α) → String → List (String × α)
  | [], _ => []
  | (k, v) :: rest, key =>
    if k = key then mapDelete rest key else (k, v) :: mapDelete rest key

/-- JavaScript `Map.has`. -/
def mapHas {α : Type} (m : List (String × α)) (key : String) : Bool :=
  (mapGet m key).isSome

/-- One `simple-peer` connection object, tagged with a unique allocation
id. `destroyCount` counts invocations of `destroy()` on it; `received`
lists the signal payloads delivered to it via `peer.signal(data)`. -/
structure PeerConn where
  allocId : Nat
  peerId : String
  initiator : Bool
  destroyCount : Nat
  received : List Nat
deriving Repr, DecidableEq

/-- Increment the destroy count of the connection with allocation id `a`
(the effect of calling `peer.destroy()` on it). -/
def bumpDestroy (allocs : List PeerConn) (a : Nat) : List PeerConn :=
  allocs.map fun c =>
    if c.allocId = a then { c with destroyCount := c.destroyCount + 1 } else c

/-- Deliver signal payload `d` to the connection with allocation id `a`
(the effect of `peer.signal(d)`). -/
def deliverSignal (allocs : List PeerConn) (a : Nat) (d : Nat) : List PeerConn :=
  allocs.map fun c =>
    if c.allocId = a then { c with received := c.received ++ [d] } else c

/-- The connection object with allocation id `a`, if any. -/
def connOf (allocs : List PeerConn) (a : Nat) : Option PeerConn :=
  allocs.find? fun c => c.allocId == a

/-- Destroy count of the connection with allocation id `a` (0 when no such
connection was ever allocated). -/
def destroyCountOf (allocs : List PeerConn) (a : Nat) : Nat :=
  match connOf allocs a with
  | some c => c.destroyCount
  | none => 0

/-- Number of live (allocated and never destroyed) connection objects
whose peer identifier is `pid`. -/
def liveFor (allocs : List PeerConn) (pid : String) : Nat :=
  (allocs.filter fun c => c.peerId == pid && c.destroyCount == 0).length

/-! ## Module-level voice-chat client (`startVoiceChat` and friends)

State of the module: the `peers` map, the open socket (represented by its
id, `none` when no socket), whether a local stream was captured, the
allocation bookkeeping, and the log of events emitted on `voiceEvents`. -/

structure ModState where
  sockId : Option String
  hasLocalStream : Bool
  peers : List (String × Nat)
  nextAlloc : Nat
  allocs : List PeerConn
  log : List String
deriving Repr, DecidableEq

/-- `ensurePeer(peerId, initiator, ...)`: returns `null` when no socket is
open or the requested id is the local socket's own id; returns the
existing connection when the id is already tracked; otherwise allocates a
new connection with the given role and stores it. -/
def ensurePeer (s : ModState) (peerId : String) (initiator : Bool) :
    Option Nat × ModState :=
  match s.sockId with
  | none => (none, s)
  | some sid =>
    if peerId = sid then (none, s)
    else
      match mapGet s.peers peerId with
      | some a => (some a, s)
      | none =>
        let a := s.nextAlloc
        let conn : PeerConn :=
          { allocId := a, peerId := peerId, initiator := initiator
            destroyCount := 0, received := [] }
        (some a,
          { s with
            nextAlloc := a + 1
            allocs := s.allocs ++ [conn]
            peers := mapSet s.peers peerId a })

/-- `teardownPeer(peerId, onPeerLeft)`: when the id is tracked, remove all
listeners, destroy the connection, delete the map entry and fire the
peer-left callback (which emits a `peer-left` event). Because
`removeAllListeners()` precedes `destroy()`, the connection's own close
event can no longer re-enter this path. -/
def teardownPeer (s : ModState) (peerId : String) : ModState :=
  match mapGet s.peers peerId with
  | none => s
  | some a =>
    { s with
      allocs := bumpDestroy s.allocs a
      peers := mapDelete s.peers peerId
      log := s.log ++ ["peer-left"] }

/-- `stopVoiceChat()`: destroy every connection in the map, clear the map,
drop the socket, stop and drop the local stream. -/
def stopVoiceChat (s : ModState) : ModState :=
  { s with
    allocs := s.peers.foldl (fun al kv => bumpDestroy al kv.2) s.allocs
    peers := []
    sockId := none
    hasLocalStream := false }

/-- Handler for the `introduction` roster event: ensure an initiator
connection for every listed peer. -/
def onIntroductionM (s : ModState) (ids : List String) : ModState :=
  ids.foldl (fun st pid => (ensurePeer st pid true).2) s

/-- Handler for the `newUserConnected` event: emit `peer-joined`, then
ensure a responder connection for the newcomer. -/
def onPeerJoinedM (s : ModState) (pid : String) : ModState :=
  (ensurePeer { s with log := s.log ++ ["peer-joined"] } pid false).2

/-- Handler for the `signal` event: drop the event unless `to` is the
local socket id; otherwise ensure a responder connection for `from` and
deliver the payload to it. -/
def onSignalM (s : ModState) (toId fromId : String) (d : Nat) : ModState :=
  match s.sockId with
  | none => s
  | some sid =>
    if toId = sid then
      match ensurePeer s fromId false with
      | (some a, s') => { s' with allocs := deliverSignal s'.allocs a d }
      | (none, s') => s'
    else s

/-- Handler for the `userDisconnected` event. -/
def onPeerLeftM (s : ModState) (pid : String) : ModState :=
  teardownPeer s pid

/-- Handler for the socket `disconnect` event: the body only emits a
`socket-disconnect` notification; no peer state is touched. -/
def onSocketDisconnectM (s : ModState) : ModState :=
  { s with log := s.log ++ ["socket-disconnect"] }

/-- Membership events delivered by the signaling channel. -/
inductive MEvent where
  | introduction (ids : List String)
  | peerJoined (id : String)
  | signal (toId fromId : String) (d : Nat)
  | peerLeft (id : String)
deriving Repr, DecidableEq

/-- Dispatch one signaling event to the module's handlers. -/
def stepM (s : ModState) : MEvent → ModState
  | .introduction ids => onIntroductionM s ids
  | .peerJoined pid => onPeerJoinedM s pid
  | .signal t f d => onSignalM s t f d
  | .peerLeft pid => onPeerLeftM s pid

/-- Process a sequence of signaling events in arrival order. -/
def runM (s : ModState) (evs : List MEvent) : ModState :=
  evs.foldl stepM s

/-- Module state right after `startVoiceChat` connected: media captured,
socket open with id `sid`, no peers yet. -/
def initM (sid : String) : ModState :=
  { sockId := some sid, hasLocalStream := true, peers := []
    nextAlloc := 0, allocs := [], log := [] }

/-- Prefix of `startVoiceChat(meetingId, ...)`: reject a missing meeting
id or server URL, then await `getUserMedia` — a media-permission denial
rejects the whole call before any socket is opened — then await the
socket connection. -/
def startVoiceChat (meetingId : String) (hasServerUrl : Bool)
    (media : Option Unit) (sock : Option String) : Except String ModState :=
  if meetingId = "" then .error "meetingId is required to start voice chat"
  else if hasServerUrl = false then .error "VITE_VOICE_SERVER_URL is not configured"
  else
    match media with
    | none => .error "MediaAccessError"
    | some _ =>
      match sock with
      | none => .error "ConnectionError"
      | some sid => .ok (initM sid)

/-! ## Hook implementation (`useVoiceWebRTC`) -/

/-- The hook's `connectionState`. -/
inductive ConnState where
  | disconnected
  | connecting
  | connected
  | errored
deriving Repr, DecidableEq

/-- One entry of the hook's `remotePeers` React state. -/
structure RemoteEntry where
  hasStream : Bool
  connected : Bool
deriving Repr, DecidableEq

/-- State of the hook: refs (`peersRef`, `socketRef`, `localStreamRef`),
React state (`remotePeers`, `connectionState`, `error`), the inputs
gating `connect` (`config`, `session`, server URL) and the allocation
bookkeeping. -/
structure HookState where
  hasConfig : Bool
  hasSession : Bool
  hasServerUrl : Bool
  hasLocalStream : Bool
  socketOpen : Bool
  localId : String
  connState : ConnState
  peersMap : List (String × Nat)
  remotePeers : List (String × RemoteEntry)
  nextAlloc : Nat
  allocs : List PeerConn
  lastError : Bool
deriving Repr, DecidableEq

/-- `createPeer(peerId, initiator, iceServers)`: returns `null` when no
local stream is captured; otherwise unconditionally allocates a fresh
connection and stores it under `peerId` (overwriting any entry already
there — there is no existence check). -/
def createPeer (s : HookState) (peerId : String) (initiator : Bool) :
    Option Nat × HookState :=
  if s.hasLocalStream = false then (none, s)
  else
    let a := s.nextAlloc
    let conn : PeerConn :=
      { allocId := a, peerId := peerId, initiator := initiator
        destroyCount := 0, received := [] }
    (some a,
      { s with
        nextAlloc := a + 1
        allocs := s.allocs ++ [conn]
        peersMap := mapSet s.peersMap peerId a })

/-- `destroyPeer(peerId)`: when the id is in `peersRef`, destroy that
connection and delete the map entry; in every case remove the id from the
`remotePeers` React state. The connection's close event re-enters this
function; the re-entry is modelled by applying it again. -/
def destroyPeer (s : HookState) (peerId : String) : HookState :=
  let s1 :=
    match mapGet s.peersMap peerId with
    | some a =>
      { s with
        allocs := bumpDestroy s.allocs a
        peersMap := mapDelete s.peersMap peerId }
    | none => s
  { s1 with remotePeers := mapDelete s1.remotePeers peerId }

/-- Handler for `introduction`: create an initiator connection for every
listed peer, with no check for an already-tracked id. -/
def onIntroductionH (s : HookState) (ids : List String) : HookState :=
  ids.foldl (fun st pid => (createPeer st pid true).2) s

/-- Handler for `newUserConnected`: create a responder connection, with no
check for an already-tracked id. -/
def onNewUserH (s : HookState) (pid : String) : HookState :=
  (createPeer s pid false).2

/-- Handler for `signal`: look up the `from` id, lazily create a responder
connection when absent, and deliver the payload. The `to` parameter is
received but never compared with the local identity. -/
def onSignalH (s : HookState) (_toId fromId : String) (d : Nat) : HookState :=
  match mapGet s.peersMap fromId with
  | some a => { s with allocs := deliverSignal s.allocs a d }
  | none =>
    match createPeer s fromId false with
    | (some a, s') => { s' with allocs := deliverSignal s'.allocs a d }
    | (none, s') => s'

/-- Handler for `userDisconnected`. -/
def onUserDisconnectedH (s : HookState) (pid : String) : HookState :=
  destroyPeer s pid

/-- Handler for the socket `disconnect` event: unless the reason is the
locally initiated `io client disconnect`, set the connection state to
`disconnected`. Nothing else is touched. -/
def onSocketDisconnectH (s : HookState) (reason : String) : HookState :=
  if reason = "io client disconnect" then s
  else { s with connState := .disconnected }

/-- Handler for a connection's `stream` event: record the remote entry as
connected with a stream. -/
def onPeerStreamH (s : HookState) (pid : String) : HookState :=
  { s with remotePeers := mapSet s.remotePeers pid ⟨true, true⟩ }

/-- Handler for a connection's `connect` event: mark the existing remote
entry connected, or insert a fresh connected entry without a stream. -/
def onPeerConnectH (s : HookState) (pid : String) : HookState :=
  match mapGet s.remotePeers pid with
  | some e => { s with remotePeers := mapSet s.remotePeers pid { e with connected := true } }
  | none => { s with remotePeers := mapSet s.remotePeers pid ⟨false, true⟩ }

/-- `connect()`: abort silently when config or session is missing, abort
silently when no local stream is captured, record an error when no server
URL is configured, and otherwise open the socket and enter the
`connecting` state. -/
def connect (s : HookState) : HookState :=
  if s.hasConfig = false ∨ s.hasSession = false then s
  else if s.hasLocalStream = false then s
  else if s.hasServerUrl = false then { s with lastError := true }
  else { s with connState := .connecting, socketOpen := true, lastError := false }

/-- `disconnect()`: destroy every connection in `peersRef`, clear the map,
disconnect and drop the socket, reset the React state. -/
def disconnect (s : HookState) : HookState :=
  { s with
    allocs := s.peersMap.foldl (fun al kv => bumpDestroy al kv.2) s.allocs
    peersMap := []
    socketOpen := false
    remotePeers := []
    connState := .disconnected
    lastError := false }

/-- Signaling and connection events observable by the hook. -/
inductive HEvent where
  | introduction (ids : List String)
  | newUser (id : String)
  | signal (toId fromId : String) (d : Nat)
  | userDisconnected (id : String)
  | socketDisconnect (reason : String)
  | peerStream (id : String)
  | peerConnect (id : String)
deriving Repr, DecidableEq

/-- Dispatch one event to the hook's handlers. -/
def stepH (s : HookState) : HEvent → HookState
  | .introduction ids => onIntroductionH s ids
  | .newUser pid => onNewUserH s pid
  | .signal t f d => onSignalH s t f d
  | .userDisconnected pid => onUserDisconnectedH s pid
  | .socketDisconnect r => onSocketDisconnectH s r
  | .peerStream pid => onPeerStreamH s pid
  | .peerConnect pid => onPeerConnectH s pid

/-- Process a sequence of events in arrival order. -/
def runH (s : HookState) (evs : List HEvent) : HookState :=
  evs.foldl stepH s

/-- Hook state right after a successful `connect()` with a local stream:
socket open under `localId`, no peers yet. -/
def initH (localId : String) : HookState :=
  { hasConfig := true, hasSession := true, hasServerUrl := true
    hasLocalStream := true, socketOpen := true, localId := localId
    connState := .connected, peersMap := [], remotePeers := []
    nextAlloc := 0, allocs := [], lastError := false }

/-- Hook state before `connect()` was ever called, with media permission
denied (no local stream). -/
def preConnectH (localId : String) : HookState :=
  { hasConfig := true, hasSession := true, hasServerUrl := true
    hasLocalStream := false, socketOpen := false, localId := localId
    connState := .disconnected, peersMap := [], remotePeers := []
    nextAlloc := 0, allocs := [], lastError := false }

/-! ## Session provisioning (`useVoiceSession.scheduleRefresh`) -/

/-- Safety margin for token renewal (1 minute before expiry). -/
def REFRESH_BUFFER_MS : Int := 60000

/-- The timer delay computed by `scheduleRefresh`:
`Math.max(expiresAt - Date.now() - REFRESH_BUFFER_MS, 5_000)`. -/
def scheduleRefreshDelay (now expiresAt : Int) : Int :=
  max (expiresAt - now - REFRESH_BUFFER_MS) 5000

/-! ## Association-list map lemmas -/

theorem mapGet_mapSet_self {α : Type} (m : List (String × α)) (k : String) (v : α) :
    mapGet (mapSet m k v) k = some v := by
  induction m with
  | nil => simp [mapSet, mapGet]
  | cons hd t ih =>
    obtain ⟨k', v'⟩ := hd
    by_cases h : k' = k
    · simp [mapSet, mapGet, h]
    · simp [mapSet, mapGet, h, ih]

theorem mapGet_mapSet_ne {α : Type} (m : List (String × α)) (k k' : String) (v : α)
    (h : k ≠ k') : mapGet (mapSet m k v) k' = mapGet m k' := by
  induction m with
  | nil => simp [mapSet, mapGet, h]
  | cons hd t ih =>
    obtain ⟨k0, v0⟩ := hd
    by_cases h0 : k0 = k
    · subst h0
      simp [mapSet, mapGet, h]
    · by_cases h1 : k0 = k'
      · subst h1
        simp [mapSet, mapGet, h0, Ne.symm h]
      · simp [mapSet, mapGet, h0, h1, ih]

theorem mapGet_mapDelete_self {α : Type} (m : List (String × α)) (k : String) :
    mapGet (mapDelete m k) k = none := by
  induction m with
  | nil => simp [mapDelete, mapGet]
  | cons hd t ih =>
    obtain ⟨k0, v0⟩ := hd
    by_cases h0 : k0 = k
    · simp [mapDelete, h0, ih]
    · simp [mapDelete, mapGet, h0, ih]

theorem mapGet_mapDelete_ne {α : Type} (m : List (String × α)) (k k' : String)
    (h : k ≠ k') : mapGet (mapDelete m k) k' = mapGet m k' := by
  induction m with
  | nil => simp [mapDelete]
  | cons hd t ih =>
    obtain ⟨k0, v0⟩ := hd
    by_cases h0 : k0 = k
    · subst h0
      simp [mapDelete, mapGet, h, ih]
    · simp [mapDelete, mapGet, h0, ih]

theorem mapDelete_idem {α : Type} (m : List (String × α)) (k : String) :
    mapDelete (mapDelete m k) k = mapDelete m k := by
  induction m with
  | nil => simp [mapDelete]
  | cons hd t ih =>
    obtain ⟨k0, v0⟩ := hd
    by_cases h0 : k0 = k
    · simp [mapDelete, h0, ih]
    · simp [mapDelete, h0, ih]

theorem mapGet_none_mapDelete {α : Type} (m : List (String × α)) (k k' : String)
    (h : mapGet m k' = none) : mapGet (mapDelete m k) k' = none := by
  by_cases hk : k = k'
  · subst hk
    exact mapGet_mapDelete_self m k
  · rw [mapGet_mapDelete_ne m k k' hk]
    exact h

/-! ## Allocation-list lemmas -/

theorem connOf_map (l : List PeerConn) (f : PeerConn → PeerConn)
    (hf : ∀ c, (f c).allocId = c.allocId) (a : Nat) :
    connOf (l.map f) a = (connOf l a).map f := by
  unfold connOf
  rw [List.find?_map]
  have hp : ((fun c : PeerConn => c.allocId == a) ∘ f)
      = fun c : PeerConn => c.allocId == a := by
    funext c
    simp [Function.comp, hf]
  rw [hp]

theorem connOf_allocId (l : List PeerConn) (a : Nat) (c : PeerConn)
    (h : connOf l a = some c) : c.allocId = a := by
  have := List.find?_some h
  simpa using this

theorem connOf_bumpDestroy_self (l : List PeerConn) (a : Nat) (c : PeerConn)
    (h : connOf l a = some c) :
    connOf (bumpDestroy l a) a = some { c with destroyCount := c.destroyCount + 1 } := by
  have hc := connOf_allocId l a c h
  rw [bumpDestroy, connOf_map _ _ (fun c => by by_cases h0 : c.allocId = a <;> simp [h0]), h]
  simp [hc]

theorem connOf_bumpDestroy_ne (l : List PeerConn) (a x : Nat) (hx : x ≠ a) :
    connOf (bumpDestroy l a) x = connOf l x := by
  rw [bumpDestroy, connOf_map _ _ (fun c => by by_cases h0 : c.allocId = a <;> simp [h0])]
  cases h : connOf l x with
  | none => simp
  | some c =>
    have hc := connOf_allocId l x c h
    simp [hc, hx]


theorem ensurePeer_no_sock (s : ModState) (pid : String) (b : Bool)
    (hs : s.sockId = none) : ensurePeer s pid b = (none, s) := by
  simp only [ensurePeer, hs]

theorem ensurePeer_self (s : ModState) (sid pid : String) (b : Bool)
    (hs : s.sockId = some sid) (hp : pid = sid) : ensurePeer s pid b = (none, s) := by
  simp only [ensurePeer, hs, hp, if_true]

theorem ensurePeer_existing (s : ModState) (sid pid : String) (b : Bool) (a : Nat)
    (hs : s.sockId = some sid) (hp : pid ≠ sid) (hg : mapGet s.peers pid = some a) :
    ensurePeer s pid b = (some a, s) := by
  simp only [ensurePeer, hs, hg, if_neg hp]

theorem ensurePeer_new (s : ModState) (sid pid : String) (b : Bool)
    (hs : s.sockId = some sid) (hp : pid ≠ sid) (hg : mapGet s.peers pid = none) :
    ensurePeer s pid b =
      (some s.nextAlloc,
        { s with
          nextAlloc := s.nextAlloc + 1
          allocs := s.allocs ++
            [{ allocId := s.nextAlloc, peerId := pid, initiator := b
               destroyCount := 0, received := [] }]
          peers := mapSet s.peers pid s.nextAlloc }) := by
  simp only [ensurePeer, hs, hg, if_neg hp]

theorem onSignalM_no_sock (s : ModState) (t f : String) (d : Nat)
    (hs : s.sockId = none) : onSignalM s t f d = s := by
  simp only [onSignalM, hs]

theorem onSignalM_wrong_to (s : ModState) (sid t f : String) (d : Nat)
    (hs : s.sockId = some sid) (ht : t ≠ sid) : onSignalM s t f d = s := by
  simp only [onSignalM, hs, if_neg ht]

theorem onSignalM_to_self (s : ModState) (sid t f : String) (d : Nat)
    (hs : s.sockId = some sid) (ht : t = sid) :
    onSignalM s t f d =
      match ensurePeer s f false with
      | (some a, s') => { s' with allocs := deliverSignal s'.allocs a d }
      | (none, s') => s' := by
  simp [onSignalM, hs, ht]

theorem teardownPeer_absent (s : ModState) (pid : String)
    (hg : mapGet s.peers pid = none) : teardownPeer s pid = s := by
  simp only [teardownPeer, hg]

theorem teardownPeer_present (s : ModState) (pid : String) (a : Nat)
    (hg : mapGet s.peers pid = some a) :
    teardownPeer s pid =
      { s with
        allocs := bumpDestroy s.allocs a
        peers := mapDelete s.peers pid
        log := s.log ++ ["peer-left"] } := by
  simp only [teardownPeer, hg]

theorem map_allocId_map (l : List PeerConn) (f : PeerConn → PeerConn)
    (hf : ∀ c, (f c).allocId = c.allocId) :
    (l.map f).map (fun c => c.allocId) = l.map (fun c => c.allocId) := by
  rw [List.map_map]
  simp [Function.comp, hf]

/-! ## Module tracker invariant: at most one live connection per identifier -/

/-- Well-formedness of the module tracker state: allocation ids stay below
the allocation counter and are pairwise distinct, and every live (never
destroyed) connection is exactly the one its own peer identifier currently
maps to. -/
def WFM (s : ModState) : Prop :=
  (∀ c ∈ s.allocs, c.allocId < s.nextAlloc) ∧
  (s.allocs.map (fun c => c.allocId)).Nodup ∧
  (∀ c ∈ s.allocs, c.destroyCount = 0 → mapGet s.peers c.peerId = some c.allocId)

theorem WFM_initM (sid : String) : WFM (initM sid) := by
  refine ⟨?_, ?_, ?_⟩ <;> simp [initM]

theorem WFM_ensurePeer (s : ModState) (pid : String) (b : Bool) (h : WFM s) :
    WFM (ensurePeer s pid b).2 := by
  obtain ⟨hb, hnd, hlive⟩ := h
  cases hs : s.sockId with
  | none =>
    rw [ensurePeer_no_sock s pid b hs]
    exact ⟨hb, hnd, hlive⟩
  | some sid =>
    by_cases hp : pid = sid
    · rw [ensurePeer_self s sid pid b hs hp]
      exact ⟨hb, hnd, hlive⟩
    · cases hg : mapGet s.peers pid with
      | some a =>
        rw [ensurePeer_existing s sid pid b a hs hp hg]
        exact ⟨hb, hnd, hlive⟩
      | none =>
        rw [ensurePeer_new s sid pid b hs hp hg]
        refine ⟨?_, ?_, ?_⟩
        · intro c hc
          rcases List.mem_append.mp hc with hc | hc
          · exact Nat.lt_succ_of_lt (hb c hc)
          · rcases List.mem_singleton.mp hc with rfl
            exact Nat.lt_succ_self _
        · rw [List.map_append]
          have hnotin : s.nextAlloc ∉ s.allocs.map (fun c => c.allocId) := by
            intro hmem
            rcases List.mem_map.mp hmem with ⟨c, hc, hcid⟩
            exact absurd hcid (Nat.ne_of_lt (hb c hc))
          simp [List.nodup_append, hnd, hnotin]
        · intro c hc hc0
          rcases List.mem_append.mp hc with hc | hc
          · have hmem := hlive c hc hc0
            have hne : pid ≠ c.peerId := by
              intro hpe
              rw [← hpe, hg] at hmem
              cases hmem
            show mapGet (mapSet s.peers pid s.nextAlloc) c.peerId = some c.allocId
            rw [mapGet_mapSet_ne s.peers pid c.peerId s.nextAlloc hne]
            exact hmem
          · rcases List.mem_singleton.mp hc with rfl
            exact mapGet_mapSet_self s.peers pid s.nextAlloc

theorem WFM_teardownPeer (s : ModState) (pid : String) (h : WFM s) :
    WFM (teardownPeer s pid) := by
  obtain ⟨hb, hnd, hlive⟩ := h
  cases hg : mapGet s.peers pid with
  | none =>
    rw [teardownPeer_absent s pid hg]
    exact ⟨hb, hnd, hlive⟩
  | some a =>
    rw [teardownPeer_present s pid a hg]
    have hfid : ∀ c : PeerConn,
        ((fun c => if c.allocId = a then { c with destroyCount := c.destroyCount + 1 } else c) c).allocId
          = c.allocId := by
      intro c
      by_cases h0 : c.allocId = a <;> simp [h0]
    refine ⟨?_, ?_, ?_⟩
    · intro c hc
      rcases List.mem_map.mp hc with ⟨c0, hc0, rfl⟩
      rw [hfid c0]
      exact hb c0 hc0
    · show ((bumpDestroy s.allocs a).map (fun c => c.allocId)).Nodup
      rw [bumpDestroy, map_allocId_map _ _ hfid]
      exact hnd
    · intro c hc hc0
      rcases List.mem_map.mp hc with ⟨c0, hc0mem, rfl⟩
      by_cases h0 : c0.allocId = a
      · simp only [h0, if_pos rfl] at hc0 ⊢
        cases hc0
      · simp only [h0, ite_false] at hc0 ⊢
        have hmem := hlive c0 hc0mem hc0
        have hne : pid ≠ c0.peerId := by
          intro hpe
          rw [← hpe, hg] at hmem
          cases hmem
          exact h0 rfl
        show mapGet (mapDelete s.peers pid) c0.peerId = some c0.allocId
        rw [mapGet_mapDelete_ne s.peers pid c0.peerId hne]
        exact hmem

theorem WFM_map_allocs (s : ModState) (f : PeerConn → PeerConn)
    (hid : ∀ c, (f c).allocId = c.allocId)
    (hpid : ∀ c, (f c).peerId = c.peerId)
    (hcnt : ∀ c, (f c).destroyCount = c.destroyCount)
    (h : WFM s) : WFM { s with allocs := s.allocs.map f } := by
  obtain ⟨hb, hnd, hlive⟩ := h
  refine ⟨?_, ?_, ?_⟩
  · intro c hc
    rcases List.mem_map.mp hc with ⟨c0, hc0, rfl⟩
    rw [hid c0]
    exact hb c0 hc0
  · show ((s.allocs.map f).map (fun c => c.allocId)).Nodup
    rw [map_allocId_map _ _ hid]
    exact hnd
  · intro c hc hc0
    rcases List.mem_map.mp hc with ⟨c0, hc0mem, rfl⟩
    rw [hcnt c0] at hc0
    rw [hid c0, hpid c0]
    exact hlive c0 hc0mem hc0

theorem WFM_deliverSignal (s : ModState) (a d : Nat) (h : WFM s) :
    WFM { s with allocs := deliverSignal s.allocs a d } := by
  rw [deliverSignal]
  refine WFM_map_allocs s _ ?_ ?_ ?_ h <;>
    intro c <;> by_cases h0 : c.allocId = a <;> simp [h0]

theorem WFM_log (s : ModState) (x : List String) (h : WFM s) :
    WFM { s with log := x } := h

theorem WFM_stepM (s : ModState) (e : MEvent) (h : WFM s) : WFM (stepM s e) := by
  cases e with
  | introduction ids =>
    show WFM (onIntroductionM s ids)
    unfold onIntroductionM
    induction ids generalizing s with
    | nil => exact h
    | cons hd t ih =>
      exact ih _ (WFM_ensurePeer s hd true h)
  | peerJoined pid =>
    exact WFM_ensurePeer _ pid false (WFM_log s _ h)
  | signal t f d =>
    show WFM (onSignalM s t f d)
    cases hs : s.sockId with
    | none =>
      rw [onSignalM_no_sock s t f d hs]
      exact h
    | some sid =>
      by_cases ht : t = sid
      · rw [onSignalM_to_self s sid t f d hs ht]
        have h1 := WFM_ensurePeer s f false h
        rcases he : ensurePeer s f false with ⟨op, s'⟩
        rw [he] at h1
        cases op with
        | none => exact h1
        | some a => exact WFM_deliverSignal s' a d h1
      · rw [onSignalM_wrong_to s sid t f d hs ht]
        exact h
  | peerLeft pid =>
    exact WFM_teardownPeer s pid h

theorem WFM_runM (s : ModState) (evs : List MEvent) (h : WFM s) :
    WFM (runM s evs) := by
  unfold runM
  induction evs generalizing s with
  | nil => exact h
  | cons hd t ih => exact ih _ (WFM_stepM s hd h)

theorem filter_allocId_le_one (l : List PeerConn) (p : PeerConn → Bool) (a : Nat)
    (hnd : (l.map (fun c => c.allocId)).Nodup)
    (hall : ∀ c ∈ l, p c = true → c.allocId = a) :
    (l.filter p).length ≤ 1 := by
  induction l with
  | nil => simp
  | cons hd t ih =>
    rw [List.map_cons, List.nodup_cons] at hnd
    by_cases hp : p hd = true
    · rw [List.filter_cons_of_pos hp]
      have hhd := hall hd (by simp) hp
      have ht : t.filter p = [] := by
        apply List.filter_eq_nil_iff.mpr
        intro c hc hpc
        have hca := hall c (by simp [hc]) (by simpa using hpc)
        apply hnd.1
        rw [hhd, ← hca]
        exact List.mem_map_of_mem _ hc
      simp [ht]
    · rw [List.filter_cons_of_neg hp]
      exact ih hnd.2 fun c hc hpc => hall c (by simp [hc]) hpc

theorem liveFor_le_one_of_WFM (s : ModState) (pid : String) (h : WFM s) :
    liveFor s.allocs pid ≤ 1 := by
  obtain ⟨hb, hnd, hlive⟩ := h
  unfold liveFor
  cases hg : mapGet s.peers pid with
  | none =>
    have hnil : s.allocs.filter (fun c => c.peerId == pid && c.destroyCount == 0) = [] := by
      apply List.filter_eq_nil_iff.mpr
      intro c hc hpc
      have h1 : c.peerId = pid ∧ c.destroyCount = 0 := by simpa using hpc
      have := hlive c hc h1.2
      rw [h1.1, hg] at this
      cases this
    simp [hnil]
  | some a =>
    apply filter_allocId_le_one s.allocs _ a hnd
    intro c hc hpc
    have h1 : c.peerId = pid ∧ c.destroyCount = 0 := by simpa using hpc
    have := hlive c hc h1.2
    rw [h1.1, hg] at this
    cases this
    rfl

/-! ## Claim C1 -/

/-- C1 counterexample: in the hook implementation, a signal from peer X
arriving before the join notification for X (the race the lazy-creation
path exists for) is followed by `newUserConnected(X)`, whose handler calls
`createPeer` unconditionally: a second connection object is allocated and
stored for X while the first is never destroyed, so two live connection
objects for the identifier X coexist — the claim as stated is false on
this implementation. -/
theorem c1_hook_duplicate_counterexample :
    liveFor (runH (initH "me") [.signal "me" "X" 5, .newUser "X"]).allocs "X" = 2 ∧
    ¬ liveFor (runH (initH "me") [.signal "me" "X" 5, .newUser "X"]).allocs "X" ≤ 1 := by
  decide

/-- C1 (amended): in the module implementation, whose creations all go
through `ensurePeer`, every sequence of membership events (introduction
rosters, join notifications, inbound signals, leave notifications)
maintains at most one live connection object per peer identifier —
creation is idempotent there. -/
theorem c1_module_at_most_one_live (sid : String) (evs : List MEvent) (pid : String) :
    liveFor (runM (initM sid) evs).allocs pid ≤ 1 :=
  liveFor_le_one_of_WFM _ pid (WFM_runM _ evs (WFM_initM sid))

/-! ## Claim C2 -/

/-- C2 counterexample: the hook's signal handler receives the `to`
identifier but never compares it with the local identity — a signal
addressed to "bob", received by the client whose local id is "me", is not
ignored: a responder connection for "X" is created and the payload is
delivered to it. -/
theorem c2_hook_ignores_to_counterexample :
    (onSignalH (initH "me") "bob" "X" 7).peersMap = [("X", 0)] ∧
    connOf (onSignalH (initH "me") "bob" "X" 7).allocs 0 =
      some { allocId := 0, peerId := "X", initiator := false
             destroyCount := 0, received := [7] } ∧
    onSignalH (initH "me") "bob" "X" 7 ≠ initH "me" := by
  decide

/-- C2 (amended): in the module implementation the signal handler ignores
every signal whose `to` identifier differs from the local socket id, and
otherwise routes the payload to the record for `from`, lazily creating it
with responder role — so a signal from X arriving before the join
notification for X yields exactly one live connection for X, with
responder role and the payload delivered. -/
theorem c2_module_signal_routing (sid X : String) (d : Nat) (hx : X ≠ sid) :
    (∀ (m : ModState) (t f : String) (e : Nat),
      m.sockId = some sid → t ≠ sid → onSignalM m t f e = m) ∧
    liveFor (runM (initM sid) [.signal sid X d, .peerJoined X]).allocs X = 1 ∧
    mapGet (runM (initM sid) [.signal sid X d, .peerJoined X]).peers X = some 0 ∧
    connOf (runM (initM sid) [.signal sid X d, .peerJoined X]).allocs 0 =
      some { allocId := 0, peerId := X, initiator := false
             destroyCount := 0, received := [d] } := by
  have hrun : runM (initM sid) [.signal sid X d, .peerJoined X] =
      { sockId := some sid, hasLocalStream := true, peers := [(X, 0)]
        nextAlloc := 1
        allocs := [{ allocId := 0, peerId := X, initiator := false
                     destroyCount := 0, received := [d] }]
        log := ["peer-joined"] } := by
    have h1 : stepM (initM sid) (.signal sid X d) =
        { sockId := some sid, hasLocalStream := true, peers := [(X, 0)]
          nextAlloc := 1
          allocs := [{ allocId := 0, peerId := X, initiator := false
                       destroyCount := 0, received := [d] }]
          log := [] } := by
      show onSignalM (initM sid) sid X d = _
      rw [onSignalM_to_self (initM sid) sid sid X d rfl rfl]
      rw [ensurePeer_new (initM sid) sid X false rfl hx rfl]
      simp [initM, mapSet, deliverSignal]
    show stepM (stepM (initM sid) (.signal sid X d)) (.peerJoined X) = _
    rw [h1]
    show (ensurePeer _ X false).2 = _
    rw [ensurePeer_existing _ sid X false 0 rfl hx (by simp [mapGet])]
    simp
  rw [hrun]
  refine ⟨?_, ?_, ?_, ?_⟩
  · intro m t f e hm ht
    exact onSignalM_wrong_to m sid t f e hm ht
  · simp [liveFor]
  · simp [mapGet]
  · simp [connOf]

/-- C2 witness: the amended-claim theorem applied at concrete inputs. -/
theorem c2_module_signal_routing_witness :
    liveFor (runM (initM "me") [.signal "me" "p3" 9, .peerJoined "p3"]).allocs "p3" = 1 :=
  (c2_module_signal_routing "me" "p3" 9 (by decide)).2.1

/-! ## Claim C3 -/

/-- C3: role assignment is glare-free. A roster `introduction([p1, p2])`
on a fresh tracker creates exactly the records for `p1` and `p2`, both
with `isInitiator = true`, while a `newUserConnected(X)` notification
creates X's record with `isInitiator = false` — in both implementations.
Since the side that learns of a pair via the roster gets `true` and the
side that learns via the join notification gets `false`, the two sides of
a pair never both initiate. -/
theorem c3_roles_glare_free (sid p1 p2 X : String)
    (h1 : p1 ≠ sid) (h2 : p2 ≠ sid) (h12 : p1 ≠ p2) (hX : X ≠ sid) :
    (mapGet (onIntroductionM (initM sid) [p1, p2]).peers p1 = some 0 ∧
     mapGet (onIntroductionM (initM sid) [p1, p2]).peers p2 = some 1 ∧
     connOf (onIntroductionM (initM sid) [p1, p2]).allocs 0 =
       some { allocId := 0, peerId := p1, initiator := true
              destroyCount := 0, received := [] } ∧
     connOf (onIntroductionM (initM sid) [p1, p2]).allocs 1 =
       some { allocId := 1, peerId := p2, initiator := true
              destroyCount := 0, received := [] }) ∧
    connOf (onPeerJoinedM (initM sid) X).allocs 0 =
      some { allocId := 0, peerId := X, initiator := false
             destroyCount := 0, received := [] } ∧
    (connOf (onIntroductionH (initH sid) [p1, p2]).allocs 0 =
       some { allocId := 0, peerId := p1, initiator := true
              destroyCount := 0, received := [] } ∧
     connOf (onIntroductionH (initH sid) [p1, p2]).allocs 1 =
       some { allocId := 1, peerId := p2, initiator := true
              destroyCount := 0, received := [] } ∧
     connOf (onNewUserH (initH sid) X).allocs 0 =
       some { allocId := 0, peerId := X, initiator := false
              destroyCount := 0, received := [] }) := by
  have e1 : (ensurePeer (initM sid) p1 true).2 =
      { sockId := some sid, hasLocalStream := true, peers := [(p1, 0)]
        nextAlloc := 1
        allocs := [{ allocId := 0, peerId := p1, initiator := true
                     destroyCount := 0, received := [] }]
        log := [] } := by
    rw [ensurePeer_new (initM sid) sid p1 true rfl h1 rfl]
    simp [initM, mapSet]
  have e2 : onIntroductionM (initM sid) [p1, p2] =
      { sockId := some sid, hasLocalStream := true
        peers := [(p1, 0), (p2, 1)], nextAlloc := 2
        allocs := [{ allocId := 0, peerId := p1, initiator := true
                     destroyCount := 0, received := [] },
                   { allocId := 1, peerId := p2, initiator := true
                     destroyCount := 0, received := [] }]
        log := [] } := by
    show (ensurePeer (ensurePeer (initM sid) p1 true).2 p2 true).2 = _
    rw [e1]
    rw [ensurePeer_new _ sid p2 true rfl h2 (by simp [mapGet, h12])]
    simp [mapSet, h12]
  have e3 : onPeerJoinedM (initM sid) X =
      { sockId := some sid, hasLocalStream := true, peers := [(X, 0)]
        nextAlloc := 1
        allocs := [{ allocId := 0, peerId := X, initiator := false
                     destroyCount := 0, received := [] }]
        log := ["peer-joined"] } := by
    show (ensurePeer { initM sid with log := ["peer-joined"] } X false).2 = _
    rw [ensurePeer_new { initM sid with log := ["peer-joined"] } sid X false rfl hX rfl]
    simp [initM, mapSet]
  refine ⟨?_, ?_, ?_⟩
  · rw [e2]
    refine ⟨by simp [mapGet], by simp [mapGet, h12], by simp [connOf], by simp [connOf]⟩
  · rw [e3]
    simp [connOf]
  · refine ⟨?_, ?_, ?_⟩ <;>
      simp [onIntroductionH, onNewUserH, createPeer, initH, mapSet, connOf, h12]

/-- C3 witness: the glare-free role theorem applied at concrete
identifiers. -/
theorem c3_roles_glare_free_witness :
    connOf (onIntroductionM (initM "me") ["p1", "p2"]).allocs 0 =
      some { allocId := 0, peerId := "p1", initiator := true
             destroyCount := 0, received := [] } :=
  ((c3_roles_glare_free "me" "p1" "p2" "p4" (by decide) (by decide)
      (by decide) (by decide)).1).2.2.1

/-! ## Claim C4 -/

/-- C4: the teardown-all operations are idempotent and safe on an empty
tracker: both the hook's `disconnect` and the module's `stopVoiceChat`
are total functions (the source bodies contain no `throw`), leave the
peer map empty, and applying them a second time changes nothing. -/
theorem c4_teardown_all_idempotent (s : HookState) (m : ModState) :
    (disconnect s).peersMap = [] ∧
    disconnect (disconnect s) = disconnect s ∧
    (stopVoiceChat m).peers = [] ∧
    stopVoiceChat (stopVoiceChat m) = stopVoiceChat m := by
  refine ⟨rfl, rfl, rfl, rfl⟩

/-! ## Claim C5 -/

/-- C5 counterexample: a terminal socket disconnect (reason
`transport close`, not the locally initiated `io client disconnect`) on a
hook tracker holding peer p1 leaves the peer map non-empty and p1's
connection object live — no Peer Record is torn down, contradicting the
claim that the handler empties the peer map and releases every
connection. -/
theorem c5_disconnect_counterexample :
    (onSocketDisconnectH (runH (initH "me") [.newUser "p1"]) "transport close").peersMap
      = [("p1", 0)] ∧
    liveFor (onSocketDisconnectH (runH (initH "me") [.newUser "p1"]) "transport close").allocs
      "p1" = 1 ∧
    (onSocketDisconnectH (runH (initH "me") [.newUser "p1"]) "transport close").connState
      = ConnState.disconnected := by
  decide

/-- C5 (amended): the disconnect handlers tear nothing down. The hook's
handler leaves the peer map, the connection objects and the remote-peer
state untouched and only sets the connection state to `disconnected` when
the reason is not the locally initiated one; the module's handler only
emits a `socket-disconnect` notification. Teardown happens only through
the explicit `disconnect()` / `stopVoiceChat()` operations. -/
theorem c5_disconnect_handler_no_teardown (s : HookState) (r : String) (m : ModState) :
    (onSocketDisconnectH s r).peersMap = s.peersMap ∧
    (onSocketDisconnectH s r).allocs = s.allocs ∧
    (onSocketDisconnectH s r).remotePeers = s.remotePeers ∧
    (r ≠ "io client disconnect" →
      (onSocketDisconnectH s r).connState = ConnState.disconnected) ∧
    (onSocketDisconnectM m).peers = m.peers ∧
    (onSocketDisconnectM m).allocs = m.allocs ∧
    (onSocketDisconnectM m).sockId = m.sockId := by
  unfold onSocketDisconnectH onSocketDisconnectM
  by_cases hr : r = "io client disconnect" <;> simp [hr]

/-- C5 witness: the amended-claim theorem applied at a concrete state and
reason. -/
theorem c5_disconnect_handler_no_teardown_witness :
    (onSocketDisconnectH (initH "a") "transport close").connState = ConnState.disconnected :=
  (c5_disconnect_handler_no_teardown (initH "a") "transport close" (initM "a")).2.2.2.1
    (by decide)

/-! ## Claim C6 -/

theorem destroyPeer_present (s : HookState) (pid : String) (a : Nat)
    (hg : mapGet s.peersMap pid = some a) :
    destroyPeer s pid =
      { s with
        allocs := bumpDestroy s.allocs a
        peersMap := mapDelete s.peersMap pid
        remotePeers := mapDelete s.remotePeers pid } := by
  simp only [destroyPeer, hg]

theorem destroyPeer_absent (s : HookState) (pid : String)
    (hg : mapGet s.peersMap pid = none) :
    destroyPeer s pid = { s with remotePeers := mapDelete s.remotePeers pid } := by
  simp only [destroyPeer, hg]

/-- C6: `userDisconnected(p)` removes exactly p's record and destroys p's
connection object exactly once, even though in the hook the destroyed
connection's own close event re-enters `destroyPeer` (modelled by the
second application); every other identifier's map entries and every other
connection object are unchanged. The module's `teardownPeer` (where
`removeAllListeners` precedes `destroy`, so a double invocation models
any re-entry) satisfies the same exact-once and frame properties. -/
theorem c6_peer_left_exact_frame
    (s : HookState) (m : ModState) (p q : String) (a b : Nat) (c0 d0 : PeerConn)
    (hpq : p ≠ q)
    (hmap : mapGet s.peersMap p = some a)
    (hconn : connOf s.allocs a = some c0)
    (hc0 : c0.destroyCount = 0)
    (hmmap : mapGet m.peers p = some b)
    (hmconn : connOf m.allocs b = some d0)
    (hd0 : d0.destroyCount = 0) :
    (mapGet (destroyPeer (destroyPeer s p) p).peersMap p = none ∧
     mapGet (destroyPeer (destroyPeer s p) p).remotePeers p = none ∧
     destroyCountOf (destroyPeer (destroyPeer s p) p).allocs a = 1 ∧
     mapGet (destroyPeer (destroyPeer s p) p).peersMap q = mapGet s.peersMap q ∧
     mapGet (destroyPeer (destroyPeer s p) p).remotePeers q = mapGet s.remotePeers q ∧
     (∀ x, x ≠ a →
       connOf (destroyPeer (destroyPeer s p) p).allocs x = connOf s.allocs x)) ∧
    (mapGet (teardownPeer (teardownPeer m p) p).peers p = none ∧
     destroyCountOf (teardownPeer (teardownPeer m p) p).allocs b = 1 ∧
     mapGet (teardownPeer (teardownPeer m p) p).peers q = mapGet m.peers q ∧
     (∀ x, x ≠ b →
       connOf (teardownPeer (teardownPeer m p) p).allocs x = connOf m.allocs x)) := by
  have hd1 := destroyPeer_present s p a hmap
  have hd2 : destroyPeer (destroyPeer s p) p =
      { s with
        allocs := bumpDestroy s.allocs a
        peersMap := mapDelete s.peersMap p
        remotePeers := mapDelete s.remotePeers p } := by
    rw [hd1]
    rw [destroyPeer_absent _ p (by simp [mapGet_mapDelete_self])]
    simp [mapDelete_idem]
  have ht1 := teardownPeer_present m p b hmmap
  have ht2 : teardownPeer (teardownPeer m p) p =
      { m with
        allocs := bumpDestroy m.allocs b
        peers := mapDelete m.peers p
        log := m.log ++ ["peer-left"] } := by
    rw [ht1]
    rw [teardownPeer_absent _ p (by simp [mapGet_mapDelete_self])]
  rw [hd2, ht2]
  refine ⟨⟨?_, ?_, ?_, ?_, ?_, ?_⟩, ?_, ?_, ?_, ?_⟩
  · exact mapGet_mapDelete_self s.peersMap p
  · exact mapGet_mapDelete_self s.remotePeers p
  · show destroyCountOf (bumpDestroy s.allocs a) a = 1
    unfold destroyCountOf
    rw [connOf_bumpDestroy_self s.allocs a c0 hconn]
    simp [hc0]
  · exact mapGet_mapDelete_ne s.peersMap p q hpq
  · exact mapGet_mapDelete_ne s.remotePeers p q hpq
  · intro x hx
    exact connOf_bumpDestroy_ne s.allocs a x hx
  · exact mapGet_mapDelete_self m.peers p
  · show destroyCountOf (bumpDestroy m.allocs b) b = 1
    unfold destroyCountOf
    rw [connOf_bumpDestroy_self m.allocs b d0 hmconn]
    simp [hd0]
  · exact mapGet_mapDelete_ne m.peers p q hpq
  · intro x hx
    exact connOf_bumpDestroy_ne m.allocs b x hx

/-- C6 witness: the exact-once/frame theorem applied to concrete trackers
holding p1 (connected) and p2 (pending). -/
theorem c6_peer_left_exact_frame_witness :
    destroyCountOf
      (destroyPeer
        (destroyPeer
          { initH "me" with
            peersMap := [("p1", 0), ("p2", 1)]
            remotePeers := [("p1", { hasStream := true, connected := true })]
            nextAlloc := 2
            allocs := [{ allocId := 0, peerId := "p1", initiator := true
                         destroyCount := 0, received := [] },
                       { allocId := 1, peerId := "p2", initiator := true
                         destroyCount := 0, received := [] }] } "p1") "p1").allocs 0 = 1 ∧
    mapGet
      (teardownPeer
        (teardownPeer
          { initM "me" with
            peers := [("p1", 0), ("p2", 1)]
            nextAlloc := 2
            allocs := [{ allocId := 0, peerId := "p1", initiator := true
                         destroyCount := 0, received := [] },
                       { allocId := 1, peerId := "p2", initiator := true
                         destroyCount := 0, received := [] }] } "p1") "p1").peers "p2"
      = some 1 := by
  have h := c6_peer_left_exact_frame
    { initH "me" with
      peersMap := [("p1", 0), ("p2", 1)]
      remotePeers := [("p1", { hasStream := true, connected := true })]
      nextAlloc := 2
      allocs := [{ allocId := 0, peerId := "p1", initiator := true
                   destroyCount := 0, received := [] },
                 { allocId := 1, peerId := "p2", initiator := true
                   destroyCount := 0, received := [] }] }
    { initM "me" with
      peers := [("p1", 0), ("p2", 1)]
      nextAlloc := 2
      allocs := [{ allocId := 0, peerId := "p1", initiator := true
                   destroyCount := 0, received := [] },
                 { allocId := 1, peerId := "p2", initiator := true
                   destroyCount := 0, received := [] }] }
    "p1" "p2" 0 0
    { allocId := 0, peerId := "p1", initiator := true, destroyCount := 0, received := [] }
    { allocId := 0, peerId := "p1", initiator := true, destroyCount := 0, received := [] }
    (by decide) (by decide) (by decide) (by decide) (by decide) (by decide) (by decide)
  exact ⟨h.1.2.2.1, h.2.2.2.1⟩

/-! ## Claim C7 -/

/-- C7 counterexample: with permission denied (no local stream) but config,
session and server URL all present, the hook's `connect` returns without
opening the signaling channel and without recording an error, and
`createPeer` refuses to create a connection; the module's `startVoiceChat`
fails with the media error before any socket exists. The mesh does not
proceed in receive-only mode, contradicting the claim. -/
theorem c7_no_stream_counterexample :
    connect (preConnectH "me") = preConnectH "me" ∧
    (connect (preConnectH "me")).socketOpen = false ∧
    (connect (preConnectH "me")).lastError = false ∧
    createPeer (preConnectH "me") "X" true = (none, preConnectH "me") ∧
    startVoiceChat "m1" true none (some "s1") = .error "MediaAccessError" := by
  refine ⟨by decide, by decide, by decide, by decide, rfl⟩

/-- C7 (amended): when no local media stream is available the mesh does
not proceed: the hook's `connect` returns its state unchanged — no
signaling channel is opened and no error is surfaced — and `createPeer`
returns `null` creating nothing, while the module's `startVoiceChat`
surfaces the media error to its caller before opening the channel. -/
theorem c7_no_stream_aborts (s : HookState) (pid : String) (b : Bool)
    (h : s.hasLocalStream = false) :
    connect s = s ∧
    createPeer s pid b = (none, s) ∧
    (∀ (mid : String) (sock : Option String), mid ≠ "" →
      startVoiceChat mid true none sock = .error "MediaAccessError") := by
  refine ⟨?_, ?_, ?_⟩
  · unfold connect
    by_cases hc : s.hasConfig = false ∨ s.hasSession = false
    · rw [if_pos hc]
    · rw [if_neg hc, if_pos h]
  · unfold createPeer
    rw [if_pos h]
  · intro mid sock hmid
    unfold startVoiceChat
    rw [if_neg hmid]
    rw [if_neg (by decide : ¬ (true = false))]

/-- C7 witness: the no-stream theorem applied at a concrete pre-connect
state. -/
theorem c7_no_stream_aborts_witness :
    connect (preConnectH "z") = preConnectH "z" :=
  (c7_no_stream_aborts (preConnectH "z") "q" true (by decide)).1

/-! ## Claim C8 -/

/-- C8: for a session whose expiry lies 5 minutes ahead, the renewal
timer armed by `scheduleRefresh` is set to exactly 4 minutes — with the
60-second safety buffer it fires at `now + 4min`, before expiry. -/
theorem c8_refresh_before_expiry (now expiresAt : Int)
    (h : expiresAt = now + 300000) :
    scheduleRefreshDelay now expiresAt = 240000 ∧
    now + scheduleRefreshDelay now expiresAt ≤ now + 240000 ∧
    scheduleRefreshDelay now expiresAt ≤ expiresAt - now - 60000 := by
  have h1 : expiresAt - now - REFRESH_BUFFER_MS = (240000 : Int) := by
    rw [h]
    unfold REFRESH_BUFFER_MS
    ring
  have h2 : scheduleRefreshDelay now expiresAt = 240000 := by
    unfold scheduleRefreshDelay
    rw [h1]
    norm_num
  refine ⟨h2, by rw [h2], ?_⟩
  rw [h2, h]
  norm_num

/-- C8 witness: the renewal-delay theorem applied at concrete times. -/
theorem c8_refresh_before_expiry_witness :
    scheduleRefreshDelay 0 300000 = 240000 :=
  (c8_refresh_before_expiry 0 300000 (by decide)).1

/-! ## Claim C9 -/

/-- C9: the renewal delay equals
`max(expiresAt - now - 60000, 5000)` milliseconds, is never below 5000 ms,
and in particular for an already-expired session (expiry not after now)
it is exactly 5000 ms — never an immediate retry. -/
theorem c9_refresh_delay_formula (now expiresAt : Int) :
    scheduleRefreshDelay now expiresAt = max (expiresAt - now - 60000) 5000 ∧
    5000 ≤ scheduleRefreshDelay now expiresAt ∧
    (expiresAt ≤ now → scheduleRefreshDelay now expiresAt = 5000) := by
  refine ⟨rfl, le_max_right _ _, ?_⟩
  intro h
  unfold scheduleRefreshDelay REFRESH_BUFFER_MS
  apply max_eq_right
  linarith

/-- C9 witness: the delay-formula theorem applied at a concrete
already-expired session. -/
theorem c9_refresh_delay_formula_witness :
    scheduleRefreshDelay 100 50 = 5000 :=
  (c9_refresh_delay_formula 100 50).2.2 (by decide)

/-! ## Claim C10 -/

theorem sockId_ensurePeer (s : ModState) (pid : String) (b : Bool) :
    ((ensurePeer s pid b).2).sockId = s.sockId := by
  cases hs : s.sockId with
  | none =>
    rw [ensurePeer_no_sock s pid b hs]
    exact hs
  | some sid =>
    by_cases hp : pid = sid
    · rw [ensurePeer_self s sid pid b hs hp]
      exact hs
    · cases hg : mapGet s.peers pid with
      | some a =>
        rw [ensurePeer_existing s sid pid b a hs hp hg]
        exact hs
      | none =>
        rw [ensurePeer_new s sid pid b hs hp hg]
        exact hs

theorem sockId_teardownPeer (s : ModState) (pid : String) :
    (teardownPeer s pid).sockId = s.sockId := by
  cases hg : mapGet s.peers pid with
  | none => rw [teardownPeer_absent s pid hg]
  | some a => rw [teardownPeer_present s pid a hg]

theorem sockId_onSignalM (s : ModState) (t f : String) (d : Nat) :
    (onSignalM s t f d).sockId = s.sockId := by
  cases hs : s.sockId with
  | none =>
    rw [onSignalM_no_sock s t f d hs]
    exact hs
  | some sid =>
    by_cases ht : t = sid
    · rw [onSignalM_to_self s sid t f d hs ht]
      rcases he : ensurePeer s f false with ⟨op, s'⟩
      have h1 : s'.sockId = s.sockId := by
        have h2 := sockId_ensurePeer s f false
        rw [he] at h2
        exact h2
      cases op with
      | none => exact h1.trans hs
      | some a => exact h1.trans hs
    · rw [onSignalM_wrong_to s sid t f d hs ht]
      exact hs

theorem sockId_stepM (s : ModState) (e : MEvent) : (stepM s e).sockId = s.sockId := by
  cases e with
  | introduction ids =>
    show (onIntroductionM s ids).sockId = s.sockId
    unfold onIntroductionM
    induction ids generalizing s with
    | nil => rfl
    | cons hd t ih =>
      rw [List.foldl_cons]
      rw [ih ((ensurePeer s hd true).2)]
      exact sockId_ensurePeer s hd true
  | peerJoined pid => exact sockId_ensurePeer _ pid false
  | signal t f d => exact sockId_onSignalM s t f d
  | peerLeft pid => exact sockId_teardownPeer s pid

theorem notSelf_ensurePeer (s : ModState) (sid pid : String) (b : Bool)
    (hs : s.sockId = some sid) (h : mapGet s.peers sid = none) :
    mapGet ((ensurePeer s pid b).2).peers sid = none := by
  by_cases hp : pid = sid
  · rw [ensurePeer_self s sid pid b hs hp]
    exact h
  · cases hg : mapGet s.peers pid with
    | some a =>
      rw [ensurePeer_existing s sid pid b a hs hp hg]
      exact h
    | none =>
      rw [ensurePeer_new s sid pid b hs hp hg]
      show mapGet (mapSet s.peers pid s.nextAlloc) sid = none
      rw [mapGet_mapSet_ne s.peers pid sid s.nextAlloc hp]
      exact h

theorem notSelf_teardownPeer (s : ModState) (sid pid : String)
    (h : mapGet s.peers sid = none) :
    mapGet (teardownPeer s pid).peers sid = none := by
  cases hg : mapGet s.peers pid with
  | none =>
    rw [teardownPeer_absent s pid hg]
    exact h
  | some a =>
    rw [teardownPeer_present s pid a hg]
    exact mapGet_none_mapDelete s.peers pid sid h

theorem notSelf_stepM (s : ModState) (sid : String) (e : MEvent)
    (hs : s.sockId = some sid) (h : mapGet s.peers sid = none) :
    mapGet (stepM s e).peers sid = none := by
  cases e with
  | introduction ids =>
    show mapGet (onIntroductionM s ids).peers sid = none
    unfold onIntroductionM
    induction ids generalizing s with
    | nil => exact h
    | cons hd t ih =>
      rw [List.foldl_cons]
      apply ih
      · rw [sockId_ensurePeer]
        exact hs
      · exact notSelf_ensurePeer s sid hd true hs h
  | peerJoined pid =>
    exact notSelf_ensurePeer { s with log := s.log ++ ["peer-joined"] } sid pid false hs h
  | signal t f d =>
    show mapGet (onSignalM s t f d).peers sid = none
    cases hs0 : s.sockId with
    | none =>
      rw [onSignalM_no_sock s t f d hs0]
      exact h
    | some sid0 =>
      by_cases ht : t = sid0
      · rw [onSignalM_to_self s sid0 t f d hs0 ht]
        have h1 := notSelf_ensurePeer s sid f false hs h
        rcases he : ensurePeer s f false with ⟨op, s'⟩
        rw [he] at h1
        cases op with
        | none => exact h1
        | some a => exact h1
      · rw [onSignalM_wrong_to s sid0 t f d hs0 ht]
        exact h
  | peerLeft pid =>
    exact notSelf_teardownPeer s sid pid h

theorem notSelf_runM (sid : String) (s : ModState) (evs : List MEvent)
    (hs : s.sockId = some sid) (h : mapGet s.peers sid = none) :
    mapGet (runM s evs).peers sid = none := by
  unfold runM
  induction evs generalizing s with
  | nil => exact h
  | cons hd t ih =>
    rw [List.foldl_cons]
    apply ih
    · rw [sockId_stepM]
      exact hs
    · exact notSelf_stepM s sid hd hs h

/-- C10: `ensurePeer` never creates a connection for the local peer
itself — when no socket is open, or the requested identifier is the local
socket's own id, it returns `null` and leaves the state untouched — and
consequently across every sequence of signaling events the module's peer
map never contains the local identifier as a key. -/
theorem c10_ensure_peer_never_self (m : ModState) (pid : String) (b : Bool)
    (h : m.sockId = none ∨ m.sockId = some pid) :
    ensurePeer m pid b = (none, m) ∧
    (∀ (sid : String) (evs : List MEvent),
      mapGet (runM (initM sid) evs).peers sid = none) := by
  constructor
  · cases h with
    | inl h0 => exact ensurePeer_no_sock m pid b h0
    | inr h0 => exact ensurePeer_self m pid pid b h0 rfl
  · intro sid evs
    exact notSelf_runM sid (initM sid) evs rfl rfl

/-- C10 witness: the self-exclusion theorem applied at a concrete state
whose socket id equals the requested peer id. -/
theorem c10_ensure_peer_never_self_witness :
    ensurePeer (initM "me") "me" true = (none, initM "me") :=
  (c10_ensure_peer_never_self (initM "me") "me" true (Or.inr rfl)).1
